import Mathlib

/-!
# EvidenTrace — formal model of the acquisition-to-manifest integrity pipeline

A shallow embedding of the core of the EvidenTrace backend
(`src/backend/src/crypto/crypto.service.ts`,
`src/backend/src/verification/verification.service.ts`,
`src/backend/src/capture/capture.controller.ts`, and the HTTP capture
service), together with proofs of the specified properties.

File contents are modelled as `List Nat` (byte lists, each `< 256`); the
file system is a total map from filename to `Except String (List Nat)`
(`.error msg` models a missing/unreadable file whose read raises an
exception carrying `msg`). SHA-256 is implemented executably from
FIPS 180-4 over `Nat` arithmetic, mirroring node's `crypto` module used by
`CryptoService`.
-/

namespace EvidenTrace

/-! ## SHA-256 (FIPS 180-4), executable over `Nat` -/

/-- Addition of 32-bit words, wrapping modulo `2^32`. -/
def add32 (a b : Nat) : Nat := (a + b) % 4294967296

/-- Right-rotation of a 32-bit word by `n` places. -/
def rotr32 (n x : Nat) : Nat :=
  Nat.lor (Nat.shiftRight x n) (Nat.land (Nat.shiftLeft x (32 - n)) 4294967295)

/-- Bitwise complement of a 32-bit word. -/
def not32 (x : Nat) : Nat := Nat.xor x 4294967295

/-- SHA-256 `Ch` function. -/
def sha256Ch (x y z : Nat) : Nat := Nat.xor (Nat.land x y) (Nat.land (not32 x) z)

/-- SHA-256 `Maj` function. -/
def sha256Maj (x y z : Nat) : Nat :=
  Nat.xor (Nat.land x y) (Nat.xor (Nat.land x z) (Nat.land y z))

/-- SHA-256 `Σ₀`. -/
def bsig0 (x : Nat) : Nat := Nat.xor (rotr32 2 x) (Nat.xor (rotr32 13 x) (rotr32 22 x))

/-- SHA-256 `Σ₁`. -/
def bsig1 (x : Nat) : Nat := Nat.xor (rotr32 6 x) (Nat.xor (rotr32 11 x) (rotr32 25 x))

/-- SHA-256 `σ₀`. -/
def ssig0 (x : Nat) : Nat :=
  Nat.xor (rotr32 7 x) (Nat.xor (rotr32 18 x) (Nat.shiftRight x 3))

/-- SHA-256 `σ₁`. -/
def ssig1 (x : Nat) : Nat :=
  Nat.xor (rotr32 17 x) (Nat.xor (rotr32 19 x) (Nat.shiftRight x 10))

/-- The 64 SHA-256 round constants (FIPS 180-4 §4.2.2), as decimal values. -/
def sha256K : List Nat :=
  [1116352408, 1899447441, 3049323471, 3921009573,
   961987163, 1508970993, 2453635748, 2870763221,
   3624381080, 310598401, 607225278, 1426881987,
   1925078388, 2162078206, 2614888103, 3248222580,
   3835390401, 4022224774, 264347078, 604807628,
   770255983, 1249150122, 1555081692, 1996064986,
   2554220882, 2821834349, 2952996808, 3210313671,
   3336571891, 3584528711, 113926993, 338241895,
   666307205, 773529912, 1294757372, 1396182291,
   1695183700, 1986661051, 2177026350, 2456956037,
   2730485921, 2820302411, 3259730800, 3345764771,
   3516065817, 3600352804, 4094571909, 275423344,
   430227734, 506948616, 659060556, 883997877,
   958139571, 1322822218, 1537002063, 1747873779,
   1955562222, 2024104815, 2227730452, 2361852424,
   2428436474, 2756734187, 3204031479, 3329325298]

/-- The eight-word SHA-256 working state. -/
structure Sha256State where
  a : Nat
  b : Nat
  c : Nat
  d : Nat
  e : Nat
  f : Nat
  g : Nat
  h : Nat

/-- The SHA-256 initial hash value (FIPS 180-4 §5.3.3), as decimal values. -/
def sha256IV : Sha256State :=
  ⟨1779033703, 3144134277, 1013904242, 2773480762,
   1359893119, 2600822924, 528734635, 1541459225⟩

/-- One SHA-256 compression round with schedule word `w` and constant `k`. -/
def sha256Round (w k : Nat) (s : Sha256State) : Sha256State :=
  let t1 := add32 s.h (add32 (bsig1 s.e) (add32 (sha256Ch s.e s.f s.g) (add32 k w)))
  let t2 := add32 (bsig0 s.a) (sha256Maj s.a s.b s.c)
  ⟨add32 t1 t2, s.a, s.b, s.c, add32 s.d t1, s.e, s.f, s.g⟩

/-- Run the compression rounds over paired schedule words and constants. -/
def sha256Rounds : List Nat → List Nat → Sha256State → Sha256State
  | w :: ws, k :: ks, s => sha256Rounds ws ks (sha256Round w k s)
  | _, _, s => s

/-- Extend a reversed message schedule by one word. -/
def scheduleStep (wrev : List Nat) : List Nat :=
  add32 (add32 (ssig1 (wrev.getD 1 0)) (wrev.getD 6 0))
        (add32 (ssig0 (wrev.getD 14 0)) (wrev.getD 15 0)) :: wrev

/-- Iterate `scheduleStep`. -/
def scheduleExtend : Nat → List Nat → List Nat
  | 0, w => w
  | n + 1, w => scheduleExtend n (scheduleStep w)

/-- The 64-word message schedule from a 16-word block. -/
def messageSchedule (block16 : List Nat) : List Nat :=
  (scheduleExtend 48 block16.reverse).reverse

/-- Compress one 16-word block into the state. -/
def compressBlock (s : Sha256State) (block16 : List Nat) : Sha256State :=
  let t := sha256Rounds (messageSchedule block16) sha256K s
  ⟨add32 s.a t.a, add32 s.b t.b, add32 s.c t.c, add32 s.d t.d,
   add32 s.e t.e, add32 s.f t.f, add32 s.g t.g, add32 s.h t.h⟩

/-- Group bytes into big-endian 32-bit words (`fuel` bounds the recursion). -/
def bytesToWords : Nat → List Nat → List Nat
  | fuel + 1, b0 :: b1 :: b2 :: b3 :: rest =>
      (b0 * 16777216 + b1 * 65536 + b2 * 256 + b3) :: bytesToWords fuel rest
  | _, _ => []

/-- Split a padded byte list into 16-word blocks (`fuel` bounds the recursion). -/
def toBlocks : Nat → List Nat → List (List Nat)
  | _, [] => []
  | 0, _ => []
  | fuel + 1, l => bytesToWords 16 (l.take 64) :: toBlocks fuel (l.drop 64)

/-- Big-endian 8-byte encoding of a length value. -/
def lenBytes8 (n : Nat) : List Nat :=
  [n / 72057594037927936 % 256, n / 281474976710656 % 256,
   n / 1099511627776 % 256, n / 4294967296 % 256,
   n / 16777216 % 256, n / 65536 % 256, n / 256 % 256, n % 256]

/-- SHA-256 padding: append `0x80`, zeros, and the 64-bit big-endian bit length. -/
def padMessage (msg : List Nat) : List Nat :=
  let len := msg.length
  let zeros := (119 - len % 64) % 64
  msg ++ 128 :: List.replicate zeros 0 ++ lenBytes8 (8 * len)

/-- Big-endian 4-byte encoding of a 32-bit word. -/
def wordBytes (w : Nat) : List Nat :=
  [w / 16777216 % 256, w / 65536 % 256, w / 256 % 256, w % 256]

/-- SHA-256 digest of a byte list, as 32 bytes. -/
def sha256Bytes (msg : List Nat) : List Nat :=
  let padded := padMessage msg
  let final := (toBlocks padded.length padded).foldl compressBlock sha256IV
  wordBytes final.a ++ wordBytes final.b ++ wordBytes final.c ++ wordBytes final.d ++
  wordBytes final.e ++ wordBytes final.f ++ wordBytes final.g ++ wordBytes final.h

/-- Lower-case hex digit for a value `< 16`. -/
def hexDigit (n : Nat) : Char :=
  if n < 10 then Char.ofNat (48 + n) else Char.ofNat (87 + n)

/-- Lower-case hex encoding of a byte list. -/
def bytesToHex (bs : List Nat) : String :=
  String.mk ((bs.map (fun b => [hexDigit (b / 16), hexDigit (b % 16)])).flatten)

/-- UTF-8 encoding of one character. -/
def utf8Char (c : Char) : List Nat :=
  let n := c.toNat
  if n < 128 then [n]
  else if n < 2048 then [192 + n / 64, 128 + n % 64]
  else if n < 65536 then [224 + n / 4096, 128 + n / 64 % 64, 128 + n % 64]
  else [240 + n / 262144, 128 + n / 4096 % 64, 128 + n / 64 % 64, 128 + n % 64]

/-- UTF-8 encoding of a string. -/
def utf8Bytes (s : String) : List Nat := (s.data.map utf8Char).flatten

/-- `CryptoService.hashString`: lower-case hex SHA-256 of the UTF-8 bytes. -/
def hashString (content : String) : String := bytesToHex (sha256Bytes (utf8Bytes content))

/-- `CryptoService.hashFile` / `hashBuffer` on the file's byte content. -/
def hashBytesHex (bs : List Nat) : String := bytesToHex (sha256Bytes bs)

/-! ## Data model (`capture.types.ts`)

Wall-clock timestamps and durations are carried as opaque strings/numbers
supplied by the environment; fields of the manifest that the hashing,
timestamping and verification code never reads (capture metadata,
environment info, embedded capture results) are omitted from the model. -/

/-- The acquisition directory: filename to file content, or the read error. -/
def FileSystem : Type := String → Except String (List Nat)

/-- `EvidenceArtifact`. -/
structure EvidenceArtifact where
  filename : String
  description : String
  mimeType : String
  sizeBytes : Nat
  sha256 : String
  createdAt : String
  evidentiaryPurpose : String
  deriving DecidableEq, Repr, Inhabited

/-- The `masterHash` component of the manifest. -/
structure MasterHash where
  algorithm : String
  value : String
  computationMethod : String
  deriving DecidableEq, Repr

/-- Timestamp proof status (`'pending' | 'confirmed' | 'error'`). -/
inductive TsStatus where
  | pending
  | confirmed
  | error
  deriving DecidableEq, Repr

/-- `TimestampProof`. -/
structure TimestampProof where
  type : String
  proofFile : String
  stampedHash : String
  status : TsStatus
  requestedAt : String
  blockHeight : Option Nat
  transactionId : Option String
  calendarUrls : List String
  errorMessage : Option String
  deriving DecidableEq, Repr

/-- `EvidenceManifest` (the fields the integrity pipeline reads or writes). -/
structure EvidenceManifest where
  schemaVersion : String
  acquisitionId : String
  artifacts : List EvidenceArtifact
  masterHash : MasterHash
  timestampProof : Option TimestampProof
  deriving DecidableEq, Repr

/-! ## `CryptoService.computeArtifactHashes` -/

/-- The per-artifact loop of `computeArtifactHashes`: on a successful read the
artifact's `sha256` and `sizeBytes` are overwritten and the hash is pushed
onto `hashList`; on a read error `sha256` is set to an error-encoding value
and nothing is pushed. Returns the updated artifacts and the `hashList`. -/
def hashArtifactsLoop (fs : FileSystem) : List EvidenceArtifact →
    List EvidenceArtifact × List String
  | [] => ([], [])
  | a :: rest =>
    match fs a.filename with
    | .ok bs =>
      let h := hashBytesHex bs
      let res := hashArtifactsLoop fs rest
      ({ a with sha256 := h, sizeBytes := bs.length } :: res.1, h :: res.2)
    | .error msg =>
      let res := hashArtifactsLoop fs rest
      ({ a with sha256 := "ERROR: " ++ msg } :: res.1, res.2)

/-- `CryptoService.computeArtifactHashes`: hash every artifact file, update the
artifacts in manifest order, then set `masterHash.value` to the SHA-256 of the
delimiter-free concatenation of the collected `hashList`. -/
def computeArtifactHashes (fs : FileSystem) (manifest : EvidenceManifest) :
    EvidenceManifest :=
  let res := hashArtifactsLoop fs manifest.artifacts
  { manifest with
    artifacts := res.1,
    masterHash := { manifest.masterHash with value := hashString (String.join res.2) } }

/-! ## `CryptoService.verifyHashes` -/

/-- Per-file verdict (`'pass' | 'fail' | 'missing'`). -/
inductive FileVerdict where
  | pass
  | fail
  | missing
  deriving DecidableEq, Repr, Inhabited

/-- Two-valued verdict (`'pass' | 'fail'`). -/
inductive PassFail where
  | pass
  | fail
  deriving DecidableEq, Repr

/-- One entry of the `files` array returned by `verifyHashes`. -/
structure FileVerifyResult where
  filename : String
  expectedHash : String
  actualHash : String
  status : FileVerdict
  deriving DecidableEq, Repr, Inhabited

/-- The `masterHash` component returned by `verifyHashes`. -/
structure MasterVerifyResult where
  expectedHash : String
  actualHash : String
  status : PassFail
  deriving DecidableEq, Repr

/-- The result record of `verifyHashes`. -/
structure HashVerification where
  overallStatus : PassFail
  files : List FileVerifyResult
  masterHash : MasterVerifyResult
  deriving DecidableEq, Repr

/-- The per-artifact loop of `verifyHashes`: re-hash each referenced file,
classify `pass`/`fail` on success (pushing the actual hash onto `hashList`)
and `missing` on a read error. Returns the file results, the `hashList`, and
the accumulated `allPassed` flag. -/
def verifyArtifactsLoop (fs : FileSystem) : List EvidenceArtifact →
    List FileVerifyResult × List String × Bool
  | [] => ([], [], true)
  | a :: rest =>
    let res := verifyArtifactsLoop fs rest
    match fs a.filename with
    | .ok bs =>
      let actual := hashBytesHex bs
      let st := if actual = a.sha256 then FileVerdict.pass else FileVerdict.fail
      (⟨a.filename, a.sha256, actual, st⟩ :: res.1, actual :: res.2.1,
       (if st = FileVerdict.fail then false else true) && res.2.2)
    | .error _ =>
      (⟨a.filename, a.sha256, "", FileVerdict.missing⟩ :: res.1, res.2.1,
       false && res.2.2)

/-- `CryptoService.verifyHashes`: re-hash every artifact, recompute the master
hash from the newly observed hashes, and report per-file, master-hash and
overall verdicts. -/
def verifyHashes (fs : FileSystem) (manifest : EvidenceManifest) : HashVerification :=
  let res := verifyArtifactsLoop fs manifest.artifacts
  let actualMaster := hashString (String.join res.2.1)
  let masterStatus :=
    if actualMaster = manifest.masterHash.value then PassFail.pass else PassFail.fail
  let allPassed := res.2.2 && (if masterStatus = PassFail.fail then false else true)
  { overallStatus := if allPassed then PassFail.pass else PassFail.fail,
    files := res.1,
    masterHash := ⟨manifest.masterHash.value, actualMaster, masterStatus⟩ }

/-! ## `CryptoService.createTimestampProof` -/

/-- The fixed 31-byte OTS magic prefix used by `createTimestampProof` and
`verifyTimestamp`. -/
def magicBytes : List Nat :=
  [0x00, 0x4f, 0x70, 0x65, 0x6e, 0x54, 0x69, 0x6d, 0x65, 0x73, 0x74, 0x61,
   0x6d, 0x70, 0x73, 0x00, 0x00, 0x50, 0x72, 0x6f, 0x6f, 0x66, 0x00, 0xbf,
   0x89, 0xe2, 0xe8, 0x84, 0xe8, 0x92, 0x94]

/-- Value of one hex digit character, or `none` for a non-hex character. -/
def hexDigitVal (c : Char) : Option Nat :=
  if 48 ≤ c.toNat ∧ c.toNat ≤ 57 then some (c.toNat - 48)
  else if 97 ≤ c.toNat ∧ c.toNat ≤ 102 then some (c.toNat - 87)
  else if 65 ≤ c.toNat ∧ c.toNat ≤ 70 then some (c.toNat - 55)
  else none

/-- `Buffer.from(s, 'hex')`: decode hex pairs, stopping at the first invalid
pair or odd leftover character. -/
def hexDecodeChars : List Char → List Nat
  | c1 :: c2 :: rest =>
    match hexDigitVal c1, hexDigitVal c2 with
    | some hi, some lo => (16 * hi + lo) :: hexDecodeChars rest
    | _, _ => []
  | _ => []

/-- `Buffer.from(s, 'hex')` on a string. -/
def hexDecode (s : String) : List Nat := hexDecodeChars s.data

/-- The OpenTimestamps environment: resolved configuration plus the network
collaborator. `submit endpoint digest = some bytes` models an HTTP 200
response from `POST endpoint/digest` with body `bytes`; `none` models a
non-200 response or a thrown transport error (both make the loop move on to
the next calendar). -/
structure OtsEnv where
  enabled : Bool
  calendarUrls : List String
  submit : String → List Nat → Option (List Nat)

/-- The calendar-submission loop of `createTimestampProof`: try endpoints in
order, build the proof envelope at the first success and stop. Returns the
envelope (if any) and the list of endpoints actually contacted, in order. -/
def submitLoop (submit : String → List Nat → Option (List Nat))
    (hashBytes : List Nat) : List String → Option (List Nat) × List String
  | [] => (none, [])
  | u :: rest =>
    match submit u hashBytes with
    | some resp => (some (magicBytes ++ [0x08] ++ hashBytes ++ resp), [u])
    | none =>
      let res := submitLoop submit hashBytes rest
      (res.1, u :: res.2)

/-- Outcome of `createTimestampProof`: the returned proof, the content of the
written `manifest.json.ots` file (or `none` when no file is written), and the
calendar endpoints actually contacted. -/
structure OtsOutcome where
  proof : TimestampProof
  written : Option (List Nat)
  attempted : List String

/-- `CryptoService.createTimestampProof`. `requestedAt` is the wall-clock
instant supplied by the environment. -/
def createTimestampProof (env : OtsEnv) (requestedAt : String)
    (manifest : EvidenceManifest) : OtsOutcome :=
  if env.enabled = false then
    { proof :=
        { type := "opentimestamps", proofFile := "",
          stampedHash := manifest.masterHash.value, status := TsStatus.error,
          requestedAt := requestedAt, blockHeight := none, transactionId := none,
          calendarUrls := [],
          errorMessage := some "OpenTimestamps is disabled in configuration" },
      written := none, attempted := [] }
  else
    let hashBytes := hexDecode manifest.masterHash.value
    let res := submitLoop env.submit hashBytes env.calendarUrls
    match res.1 with
    | some data =>
      { proof :=
          { type := "opentimestamps", proofFile := "manifest.json.ots",
            stampedHash := manifest.masterHash.value, status := TsStatus.pending,
            requestedAt := requestedAt, blockHeight := none, transactionId := none,
            calendarUrls := env.calendarUrls, errorMessage := none },
        written := some data, attempted := res.2 }
    | none =>
      { proof :=
          { type := "opentimestamps", proofFile := "manifest.json.ots",
            stampedHash := manifest.masterHash.value, status := TsStatus.error,
            requestedAt := requestedAt, blockHeight := none, transactionId := none,
            calendarUrls := env.calendarUrls,
            errorMessage := some "Failed to obtain timestamp from any calendar server" },
        written := none, attempted := res.2 }

/-! ## `CryptoService.verifyTimestamp` (structural proof verification) -/

/-- Timestamp verification status (`'verified' | 'pending' | 'invalid' | 'error'`). -/
inductive TsVerifyStatus where
  | verified
  | pending
  | invalid
  | error
  deriving DecidableEq, Repr

/-- `CryptoService.verifyTimestamp`: structural check of the proof file —
magic-byte prefix only. Returns the status and the message. -/
def verifyTimestamp (fs : FileSystem) (manifest : EvidenceManifest) :
    TsVerifyStatus × String :=
  match manifest.timestampProof with
  | none => (TsVerifyStatus.error, "No timestamp proof found in manifest")
  | some tp =>
    match fs tp.proofFile with
    | .error msg => (TsVerifyStatus.error, "Failed to verify timestamp: " ++ msg)
    | .ok data =>
      if data.take 31 = magicBytes then
        (TsVerifyStatus.pending,
         "Timestamp proof is valid but may be pending Bitcoin confirmation. Use the OpenTimestamps client for full verification.")
      else (TsVerifyStatus.invalid, "Invalid OTS file format")

/-! ## `VerificationService` and the verification log

The log file `verification-log.json` is modelled at the level of its parsed
content: `none` is a file that does not exist (or fails to parse, in which
case `logVerification` starts from the empty array), `some l` a file holding
the JSON array `l`. The `details` object is modelled as key/value pairs with
stringified values. -/

/-- One entry of `verification-log.json`. -/
structure VerificationLogEntry where
  timestamp : String
  action : String
  acquisitionId : String
  result : String
  details : List (String × String)
  deriving DecidableEq, Repr

/-- `VerificationService.logVerification`: read the existing log (empty when
absent/unparsable), push the new entry, write the result back. The returned
list is the new content of `verification-log.json`. -/
def logVerification (file : Option (List VerificationLogEntry))
    (entry : VerificationLogEntry) : List VerificationLogEntry :=
  (file.getD []) ++ [entry]

/-- String form of a two-valued verdict, as serialized into the log. -/
def passFailString : PassFail → String
  | PassFail.pass => "pass"
  | PassFail.fail => "fail"

/-- String form of a timestamp-verification status, as serialized into the log. -/
def tsVerifyStatusString : TsVerifyStatus → String
  | TsVerifyStatus.verified => "verified"
  | TsVerifyStatus.pending => "pending"
  | TsVerifyStatus.invalid => "invalid"
  | TsVerifyStatus.error => "error"

/-- `VerificationService.verifyHashes`: run the hash verification and append
one entry to the verification log. `verifiedAt` is the wall-clock instant.
Returns the verification result and the new log content. -/
def verifyHashesRun (fs : FileSystem) (manifest : EvidenceManifest)
    (logFile : Option (List VerificationLogEntry))
    (verifiedAt acquisitionId : String) :
    HashVerification × List VerificationLogEntry :=
  let result := verifyHashes fs manifest
  let entry : VerificationLogEntry :=
    { timestamp := verifiedAt, action := "hash_verification",
      acquisitionId := acquisitionId,
      result := passFailString result.overallStatus,
      details :=
        [("filesChecked", toString result.files.length),
         ("filesPassed",
          toString (result.files.filter (fun f => f.status = FileVerdict.pass)).length),
         ("filesFailed",
          toString (result.files.filter (fun f => f.status = FileVerdict.fail)).length),
         ("filesMissing",
          toString (result.files.filter (fun f => f.status = FileVerdict.missing)).length),
         ("masterHashStatus", passFailString result.masterHash.status)] }
  (result, logVerification logFile entry)

/-- `VerificationService.verifyTimestamp`: run the structural timestamp
verification and append one entry to the verification log. -/
def verifyTimestampRun (fs : FileSystem) (manifest : EvidenceManifest)
    (logFile : Option (List VerificationLogEntry))
    (verifiedAt acquisitionId : String) :
    (TsVerifyStatus × String) × List VerificationLogEntry :=
  let result := verifyTimestamp fs manifest
  let stampedHash := (manifest.timestampProof.map (fun tp => tp.stampedHash)).getD ""
  let entry : VerificationLogEntry :=
    { timestamp := verifiedAt, action := "timestamp_verification",
      acquisitionId := acquisitionId,
      result := tsVerifyStatusString result.1,
      details := [("stampedHash", stampedHash), ("message", result.2)] }
  (result, logVerification logFile entry)

/-! ## The capture pipeline (`CaptureController.capture`, hashing/stamping part)

Models the sequence after the capture phase: first hashing pass, timestamp
proof creation (which may write `manifest.json.ots` into the directory),
appending the `logs.json` artifact and recomputing all hashes, and optionally
appending the `summary.pdf` artifact and recomputing again. Writes of
`manifest.json` itself are not modelled (no artifact references it in the
claims; the freshness hypotheses of the theorems exclude the clash). -/

/-- Overwrite one file of the acquisition directory. -/
def fsWrite (fs : FileSystem) (name : String) (content : List Nat) : FileSystem :=
  fun n => if n = name then .ok content else fs n

/-- Delete (or make unreadable) one file of the acquisition directory; reads
fail with `err`. -/
def fsErase (fs : FileSystem) (name : String) (err : String) : FileSystem :=
  fun n => if n = name then .error err else fs n

/-- The `logs.json` artifact appended by the controller after `persistLogs`. -/
def logsArtifact (createdAt : String) : EvidenceArtifact :=
  { filename := "logs.json", description := "Capture operation logs",
    mimeType := "application/json", sizeBytes := 0, sha256 := "",
    createdAt := createdAt,
    evidentiaryPurpose :=
      "Provides detailed timeline of capture operations for audit purposes." }

/-- The `summary.pdf` artifact appended by the controller after PDF generation. -/
def pdfArtifact (createdAt : String) : EvidenceArtifact :=
  { filename := "summary.pdf", description := "Human-readable PDF summary",
    mimeType := "application/pdf", sizeBytes := 0, sha256 := "",
    createdAt := createdAt,
    evidentiaryPurpose :=
      "Provides formatted documentation suitable for legal proceedings." }

/-- Environment of the post-capture pipeline: the directory state after the
capture artifacts were saved, the OTS configuration/network, and the contents
the logger and PDF generator will write. -/
structure PipelineEnv where
  fs : FileSystem
  ots : OtsEnv
  requestedAt : String
  logsBytes : List Nat
  logsCreatedAt : String
  pdfBytes : List Nat
  pdfCreatedAt : String
  generatePdf : Bool

/-- Directory state after the proof file (if any) and `logs.json` have been
written, just before the second hashing pass. -/
def pipelineFs1 (env : PipelineEnv) (m1 : EvidenceManifest) : FileSystem :=
  let ots := createTimestampProof env.ots env.requestedAt m1
  let fsA :=
    match ots.written with
    | some data => fsWrite env.fs "manifest.json.ots" data
    | none => env.fs
  fsWrite fsA "logs.json" env.logsBytes

/-- `CaptureController.capture`, hashing/stamping/recomputation sequence:
returns the finally persisted manifest. -/
def capturePipeline (env : PipelineEnv) (m0 : EvidenceManifest) : EvidenceManifest :=
  let m1 := computeArtifactHashes env.fs m0
  let ots := createTimestampProof env.ots env.requestedAt m1
  let m1' := { m1 with timestampProof := some ots.proof }
  let fs1 := pipelineFs1 env m1
  let m2 := computeArtifactHashes fs1
    { m1' with artifacts := m1'.artifacts ++ [logsArtifact env.logsCreatedAt] }
  if env.generatePdf then
    let fs2 := fsWrite fs1 "summary.pdf" env.pdfBytes
    computeArtifactHashes fs2
      { m2 with artifacts := m2.artifacts ++ [pdfArtifact env.pdfCreatedAt] }
  else m2

/-- The 64 or 128 hex characters appended to the master-hash input by the
post-stamping artifact appends (`logs.json`, and `summary.pdf` when a PDF is
generated). -/
def pipelineSuffix (env : PipelineEnv) : String :=
  hashBytesHex env.logsBytes ++
    (if env.generatePdf then hashBytesHex env.pdfBytes else "")

/-- The master-hash input of a hashing pass: the delimiter-free concatenation
of the hashes of the successfully read artifact files, in manifest order. -/
def masterInput (fs : FileSystem) (m : EvidenceManifest) : String :=
  String.join (hashArtifactsLoop fs m.artifacts).2

/-! ## `HttpCaptureService.capture` (redirect-following capture engine)

The network and WHATWG URL resolution are external collaborators:
`responder url` is the outcome of one `axios.get` with redirects disabled and
every status accepted (`.error msg` models a thrown transport error), and
`resolveUrl location base` models `new URL(location, base).href`. Wall-clock
timestamps and durations of hops are omitted. The Lean model is a total
function, which renders the termination guarantee of the loop. -/

/-- A header value: single string or list of strings. -/
inductive HeaderValue where
  | single (s : String)
  | multi (l : List String)
  deriving DecidableEq, Repr

/-- One HTTP response as seen by the capture loop. -/
structure HttpResponse where
  status : Nat
  statusText : String
  headers : List (String × HeaderValue)
  data : String
  deriving DecidableEq, Repr

/-- The capture environment: network collaborator and URL resolution. -/
structure CaptureEnv where
  responder : String → Except String HttpResponse
  resolveUrl : String → String → String

/-- One hop of the redirect chain (wall-clock fields omitted). -/
structure RedirectHopM where
  requestUrl : String
  statusCode : Nat
  statusMessage : String
  headers : List (String × HeaderValue)
  locationHeader : Option String
  bodySize : Option Nat
  method : String
  deriving DecidableEq, Repr

/-- `HttpCaptureService.getStatusMessage`. -/
def getStatusMessage (status : Nat) : String :=
  if status = 200 then "OK"
  else if status = 201 then "Created"
  else if status = 204 then "No Content"
  else if status = 301 then "Moved Permanently"
  else if status = 302 then "Found"
  else if status = 303 then "See Other"
  else if status = 304 then "Not Modified"
  else if status = 307 then "Temporary Redirect"
  else if status = 308 then "Permanent Redirect"
  else if status = 400 then "Bad Request"
  else if status = 401 then "Unauthorized"
  else if status = 403 then "Forbidden"
  else if status = 404 then "Not Found"
  else if status = 500 then "Internal Server Error"
  else if status = 502 then "Bad Gateway"
  else if status = 503 then "Service Unavailable"
  else "Unknown"

/-- `HttpCaptureService.isRedirectStatus`. -/
def isRedirectStatus (status : Nat) : Bool :=
  [301, 302, 303, 307, 308].contains status

/-- ASCII lower-casing of one character (header keys are ASCII). -/
def lowerChar (c : Char) : Char :=
  if 65 ≤ c.toNat ∧ c.toNat ≤ 90 then Char.ofNat (c.toNat + 32) else c

/-- `key.toLowerCase()` on a header key. -/
def lowerString (s : String) : String := String.mk (s.data.map lowerChar)

/-- Response headers recorded with lower-cased keys, preserving order
(later duplicates overwrite earlier ones). -/
def normalizeHeaders (hs : List (String × HeaderValue)) : List (String × HeaderValue) :=
  hs.map (fun p => (lowerString p.1, p.2))

/-- Last-wins lookup in a recorded header object (JS object assignment). -/
def headerGet (hs : List (String × HeaderValue)) (key : String) : Option HeaderValue :=
  (hs.reverse.find? (fun p => p.1 = key)).map (fun p => p.2)

/-- `HttpCaptureService.getLocationHeader`: `none` for an absent or falsy
(empty) single value; first element for a list value. -/
def getLocationHeader (hs : List (String × HeaderValue)) : Option String :=
  match headerGet hs "location" with
  | none => none
  | some (HeaderValue.single s) => if s = "" then none else some s
  | some (HeaderValue.multi l) => l.head?

/-- JS truthiness of the extracted `locationHeader` in the redirect test. -/
def locTruthy : Option String → Bool
  | none => false
  | some s => !(s == "")

/-- Aggregate result of the capture loop body. -/
structure CaptureLoopResult where
  chain : List RedirectHopM
  errors : List String
  finalResponse : Option HttpResponse
  requests : Nat
  deriving Repr

/-- The `while (redirectCount <= maxRedirects)` loop of
`HttpCaptureService.capture`. `fuel` is `maxRedirects + 1 - redirectCount`,
the number of loop iterations still permitted; each iteration issues exactly
one request and records exactly one hop. When the hop is a redirect and the
incremented redirect count exceeds `maxRedirects` (i.e. `fuel` would reach
`0`), the "maximum redirects exceeded" error is recorded and the loop stops
with the recorded hops. -/
def captureGo (env : CaptureEnv) (maxRedirects : Nat) :
    Nat → String → CaptureLoopResult
  | 0, _ => ⟨[], [], none, 0⟩
  | fuel + 1, url =>
    match env.responder url with
    | .error msg =>
      ⟨[⟨url, 0, "Request Failed", [], none, none, "GET"⟩],
       ["Request to " ++ url ++ " failed: " ++ msg], none, 1⟩
    | .ok resp =>
      let headers := normalizeHeaders resp.headers
      let loc := getLocationHeader headers
      let hop : RedirectHopM :=
        { requestUrl := url, statusCode := resp.status,
          statusMessage :=
            if resp.statusText = "" then getStatusMessage resp.status
            else resp.statusText,
          headers := headers, locationHeader := loc,
          bodySize := some (utf8Bytes resp.data).length, method := "GET" }
      if isRedirectStatus resp.status && locTruthy loc then
        let next := env.resolveUrl (loc.getD "") url
        if fuel = 0 then
          ⟨[hop], ["Maximum redirects (" ++ toString maxRedirects ++ ") exceeded"],
           none, 1⟩
        else
          let res := captureGo env maxRedirects fuel next
          ⟨hop :: res.chain, res.errors, res.finalResponse, res.requests + 1⟩
      else ⟨[hop], [], some resp, 1⟩

/-- The result summary built by `HttpCaptureService.capture` (wall-clock and
body-derived fields that no claim touches are kept minimal). -/
structure HttpCaptureResultM where
  originalUrl : String
  finalUrl : String
  redirectChain : List RedirectHopM
  finalStatusCode : Nat
  rawBody : String
  errors : List String
  requests : Nat
  deriving Repr

/-- `HttpCaptureService.capture`: run the redirect loop and assemble the
best-effort result from the recorded hops. -/
def httpCapture (env : CaptureEnv) (maxRedirects : Nat) (url : String) :
    HttpCaptureResultM :=
  let r := captureGo env maxRedirects (maxRedirects + 1) url
  let lastHop := r.chain.getLast?
  { originalUrl := url,
    finalUrl := ((lastHop.map (fun h => h.requestUrl)).getD url),
    redirectChain := r.chain,
    finalStatusCode := ((lastHop.map (fun h => h.statusCode)).getD 0),
    rawBody := ((r.finalResponse.map (fun resp => resp.data)).getD ""),
    errors := r.errors,
    requests := r.requests }

/-! ## Basic lemmas about the hashing pass -/

theorem hashArtifactsLoop_snd_filterMap (fs : FileSystem) (l : List EvidenceArtifact) :
    (hashArtifactsLoop fs l).2 = (hashArtifactsLoop fs l).1.filterMap
      (fun a => match fs a.filename with
        | .ok _ => some a.sha256
        | .error _ => none) := by
  induction l with
  | nil => rfl
  | cons a rest ih =>
    cases h : fs a.filename with
    | ok bs => simp [hashArtifactsLoop, h, ih]
    | error msg => simp [hashArtifactsLoop, h, ih]

theorem hashArtifactsLoop_filenames (fs : FileSystem) (l : List EvidenceArtifact) :
    (hashArtifactsLoop fs l).1.map (fun a => a.filename) =
      l.map (fun a => a.filename) := by
  induction l with
  | nil => rfl
  | cons a rest ih =>
    cases h : fs a.filename with
    | ok bs => simp [hashArtifactsLoop, h, ih]
    | error msg => simp [hashArtifactsLoop, h, ih]

theorem hashArtifactsLoop_congr (fs fs' : FileSystem) (l : List EvidenceArtifact)
    (h : ∀ a ∈ l, fs a.filename = fs' a.filename) :
    hashArtifactsLoop fs l = hashArtifactsLoop fs' l := by
  induction l with
  | nil => rfl
  | cons a rest ih =>
    have ha := h a (by simp)
    have hrest := ih (fun b hb => h b (by simp [hb]))
    cases hfa : fs' a.filename with
    | ok bs => simp [hashArtifactsLoop, ha, hfa, hrest]
    | error msg => simp [hashArtifactsLoop, ha, hfa, hrest]

theorem hashArtifactsLoop_append (fs : FileSystem) (l1 l2 : List EvidenceArtifact) :
    hashArtifactsLoop fs (l1 ++ l2) =
      ((hashArtifactsLoop fs l1).1 ++ (hashArtifactsLoop fs l2).1,
       (hashArtifactsLoop fs l1).2 ++ (hashArtifactsLoop fs l2).2) := by
  induction l1 with
  | nil => simp [hashArtifactsLoop]
  | cons a rest ih =>
    cases h : fs a.filename with
    | ok bs => simp [hashArtifactsLoop, h, ih]
    | error msg => simp [hashArtifactsLoop, h, ih]

theorem hashArtifactsLoop_idem (fs : FileSystem) (l : List EvidenceArtifact) :
    hashArtifactsLoop fs (hashArtifactsLoop fs l).1 = hashArtifactsLoop fs l := by
  induction l with
  | nil => rfl
  | cons a rest ih =>
    obtain ⟨fn, d, mt, sb, sh, ca, ep⟩ := a
    cases h : fs fn with
    | ok bs => simp [hashArtifactsLoop, h, ih]
    | error msg => simp [hashArtifactsLoop, h, ih]

/-- C1 counterexample directory: every read fails. -/
def c1Fs : FileSystem := fun _ => .error "ENOENT: no such file or directory"

/-- C1 counterexample manifest: a single artifact whose file is unreadable. -/
def c1Manifest : EvidenceManifest :=
  { schemaVersion := "1.0",
    acquisitionId := "2025-01-01T00-00-00-000Z-abc123",
    artifacts :=
      [{ filename := "screenshot.png", description := "Full-page screenshot",
         mimeType := "image/png", sizeBytes := 0, sha256 := "",
         createdAt := "2025-01-01T00:00:00.000Z",
         evidentiaryPurpose := "Visual record of the rendered page." }],
    masterHash :=
      { algorithm := "SHA256", value := "",
        computationMethod := "SHA256 of concatenated artifact hashes" },
    timestampProof := none }

/-- C1: the claim is false as stated — when an artifact's file cannot be read,
its error-encoding `sha256` value is *not* part of the master-hash input.
At `c1Fs`/`c1Manifest` the master hash is the hash of the empty
concatenation, not of the artifact's `"ERROR: ..."` value. -/
theorem masterHash_includes_error_values_cex :
    ¬ ((computeArtifactHashes c1Fs c1Manifest).masterHash.value =
        hashString (String.join
          ((computeArtifactHashes c1Fs c1Manifest).artifacts.map
            (fun a => a.sha256)))) := by
  decide

/-- C1 (amended): for every manifest returned by `computeArtifactHashes`,
`masterHash.value` is the SHA-256 hex digest of the delimiter-free
concatenation, in artifact-list order, of the `sha256` values of exactly
those artifacts whose file was read successfully; artifacts whose read
failed (and whose `sha256` holds an error-encoding value) are excluded. -/
theorem masterHash_of_successful_reads (fs : FileSystem) (m : EvidenceManifest) :
    (computeArtifactHashes fs m).masterHash.value =
      hashString (String.join
        ((computeArtifactHashes fs m).artifacts.filterMap
          (fun a => match fs a.filename with
            | .ok _ => some a.sha256
            | .error _ => none))) := by
  simp [computeArtifactHashes, hashArtifactsLoop_snd_filterMap]

/-- C4: running `computeArtifactHashes` twice over an unmodified directory
yields the same `sha256` and `sizeBytes` for every artifact and the same
`masterHash.value` as a single run. -/
theorem computeArtifactHashes_idempotent (fs : FileSystem) (m : EvidenceManifest) :
    ((computeArtifactHashes fs (computeArtifactHashes fs m)).artifacts.map
        (fun a => (a.sha256, a.sizeBytes)) =
      (computeArtifactHashes fs m).artifacts.map (fun a => (a.sha256, a.sizeBytes))) ∧
    (computeArtifactHashes fs (computeArtifactHashes fs m)).masterHash.value =
      (computeArtifactHashes fs m).masterHash.value := by
  constructor
  · simp [computeArtifactHashes, hashArtifactsLoop_idem]
  · simp [computeArtifactHashes, hashArtifactsLoop_idem]

/-! ## Digest shape: 64 lower-case hex characters -/

/-- A lower-case hex digit character. -/
def isLowerHexChar (c : Char) : Bool :=
  (48 ≤ c.toNat && c.toNat ≤ 57) || (97 ≤ c.toNat && c.toNat ≤ 102)

theorem wordBytes_lt (w : Nat) : ∀ b ∈ wordBytes w, b < 256 := by
  intro b hb
  simp only [wordBytes, List.mem_cons, List.not_mem_nil, or_false] at hb
  rcases hb with rfl | rfl | rfl | rfl <;> exact Nat.mod_lt _ (by norm_num)

theorem sha256Bytes_length (msg : List Nat) : (sha256Bytes msg).length = 32 := by
  simp [sha256Bytes, wordBytes]

theorem sha256Bytes_lt (msg : List Nat) : ∀ b ∈ sha256Bytes msg, b < 256 := by
  intro b hb
  simp only [sha256Bytes, List.mem_append] at hb
  rcases hb with ((((((h | h) | h) | h) | h) | h) | h) | h <;>
    exact wordBytes_lt _ _ h

theorem hexDigit_isLowerHex : ∀ n, n < 16 → isLowerHexChar (hexDigit n) = true := by
  decide

theorem bytesToHex_length (bs : List Nat) : (bytesToHex bs).length = 2 * bs.length := by
  induction bs with
  | nil => rfl
  | cons b rest ih =>
    simp only [bytesToHex, String.length, List.map_cons, List.flatten_cons] at ih ⊢
    simp only [List.length_append, List.length_cons, List.length_nil, ih]
    omega

theorem bytesToHex_chars (bs : List Nat) (h : ∀ b ∈ bs, b < 256) :
    (bytesToHex bs).data.all isLowerHexChar = true := by
  induction bs with
  | nil => rfl
  | cons b rest ih =>
    have hb := h b (by simp)
    have h1 : isLowerHexChar (hexDigit (b / 16)) = true :=
      hexDigit_isLowerHex _ (Nat.div_lt_of_lt_mul (by omega))
    have h2 : isLowerHexChar (hexDigit (b % 16)) = true :=
      hexDigit_isLowerHex _ (Nat.mod_lt _ (by norm_num))
    have hrest := ih (fun x hx => h x (by simp [hx]))
    simp only [bytesToHex, List.map_cons, List.flatten_cons] at hrest ⊢
    simp only [List.all_append, List.all_cons, List.all_nil, h1, h2, Bool.true_and,
      Bool.and_true] at hrest ⊢
    exact hrest

/-- C10 counterexample: the spec's digest for `"hello world"` is a 63-character
string missing the final `9`; `hashString "hello world"` does not equal it. -/
theorem hashString_helloWorld_cex :
    hashString "hello world" ≠
      "b94d27b9934d3e08a52e52d7da7dabfac484efe37a5380ee9088f7ace2efcde" := by
  decide

/-- C10 (amended): `hashString "hello world"` equals the true 64-character
SHA-256 hex digest `b94d...cde9`; in general `hashString` returns the
lower-case hex SHA-256 digest of the UTF-8 bytes of its input, always of
fixed 64-character length. -/
theorem hashString_spec :
    hashString "hello world" =
      "b94d27b9934d3e08a52e52d7da7dabfac484efe37a5380ee9088f7ace2efcde9" ∧
    ∀ s : String, (hashString s).length = 64 ∧
      (hashString s).data.all isLowerHexChar = true := by
  refine ⟨by decide, fun s => ⟨?_, ?_⟩⟩
  · show (bytesToHex (sha256Bytes (utf8Bytes s))).length = 64
    rw [bytesToHex_length, sha256Bytes_length]
  · exact bytesToHex_chars _ (sha256Bytes_lt _)

/-! ## Lemmas about the verification pass -/

/-- The file result `verifyHashes` produces for one artifact. -/
def verifyOne (fs : FileSystem) (a : EvidenceArtifact) : FileVerifyResult :=
  match fs a.filename with
  | .ok bs =>
    ⟨a.filename, a.sha256, hashBytesHex bs,
     if hashBytesHex bs = a.sha256 then FileVerdict.pass else FileVerdict.fail⟩
  | .error _ => ⟨a.filename, a.sha256, "", FileVerdict.missing⟩

theorem verifyArtifactsLoop_files (fs : FileSystem) (l : List EvidenceArtifact) :
    (verifyArtifactsLoop fs l).1 = l.map (verifyOne fs) := by
  induction l with
  | nil => rfl
  | cons a rest ih =>
    cases h : fs a.filename with
    | ok bs => simp [verifyArtifactsLoop, verifyOne, h, ih]
    | error msg => simp [verifyArtifactsLoop, verifyOne, h, ih]

theorem verifyArtifactsLoop_allPassed_iff (fs : FileSystem) (l : List EvidenceArtifact) :
    (verifyArtifactsLoop fs l).2.2 = true ↔
      ∀ f ∈ (verifyArtifactsLoop fs l).1, f.status = FileVerdict.pass := by
  induction l with
  | nil => simp [verifyArtifactsLoop]
  | cons a rest ih =>
    cases h : fs a.filename with
    | ok bs =>
      by_cases hc : hashBytesHex bs = a.sha256
      · simp [verifyArtifactsLoop, h, hc, ih]
      · simp [verifyArtifactsLoop, h, hc]
    | error msg => simp [verifyArtifactsLoop, h]

theorem getD_map_of_lt {α β : Type} (f : α → β) (l : List α) (i : Nat)
    (h : i < l.length) (d : α) (d' : β) :
    (l.map f).getD i d' = f (l.getD i d) := by
  induction l generalizing i with
  | nil => simp at h
  | cons a rest ih =>
    cases i with
    | zero => rfl
    | succ j => exact ih j (by simpa using h)

theorem getD_mem_of_lt {α : Type} (l : List α) (i : Nat) (h : i < l.length) (d : α) :
    l.getD i d ∈ l := by
  rw [List.getD_eq_getElem l d h]
  exact List.getElem_mem h

/-- Round-trip pass, loop level: re-verifying an unchanged directory against
the manifest just produced by the hashing pass yields only `pass` verdicts,
the same hash list, and `allPassed = true`. -/
theorem verify_after_hash (fs : FileSystem) (l : List EvidenceArtifact)
    (h : ∀ a ∈ l, ∃ bs, fs a.filename = Except.ok bs) :
    (verifyArtifactsLoop fs (hashArtifactsLoop fs l).1).2.2 = true ∧
    (verifyArtifactsLoop fs (hashArtifactsLoop fs l).1).2.1 = (hashArtifactsLoop fs l).2 ∧
    ∀ f ∈ (verifyArtifactsLoop fs (hashArtifactsLoop fs l).1).1,
      f.status = FileVerdict.pass := by
  induction l with
  | nil => exact ⟨rfl, rfl, by simp [hashArtifactsLoop, verifyArtifactsLoop]⟩
  | cons a rest ih =>
    obtain ⟨bs, hbs⟩ := h a (by simp)
    obtain ⟨ih1, ih2, ih3⟩ := ih (fun b hb => h b (by simp [hb]))
    refine ⟨?_, ?_, ?_⟩
    · simp [hashArtifactsLoop, verifyArtifactsLoop, hbs, ih1]
    · simp [hashArtifactsLoop, verifyArtifactsLoop, hbs, ih2]
    · simp only [hashArtifactsLoop, hbs]
      intro f hf
      simp only [verifyArtifactsLoop, hbs, List.mem_cons] at hf
      rcases hf with hf | hf
      · simp [hf]
      · exact ih3 f hf

/-- C2: for an acquisition directory whose referenced artifact files are all
readable, hashing and then verifying the unchanged directory yields overall
`pass`, per-file `pass` everywhere, and a `pass` master-hash verdict. -/
theorem hash_roundTrip_pass (fs : FileSystem) (m : EvidenceManifest)
    (h : ∀ a ∈ m.artifacts, ∃ bs, fs a.filename = Except.ok bs) :
    (verifyHashes fs (computeArtifactHashes fs m)).overallStatus = PassFail.pass ∧
    (∀ f ∈ (verifyHashes fs (computeArtifactHashes fs m)).files,
      f.status = FileVerdict.pass) ∧
    (verifyHashes fs (computeArtifactHashes fs m)).masterHash.status = PassFail.pass := by
  obtain ⟨h1, h2, h3⟩ := verify_after_hash fs m.artifacts h
  refine ⟨?_, ?_, ?_⟩
  · simp [verifyHashes, computeArtifactHashes, h1, h2]
  · simpa [verifyHashes, computeArtifactHashes] using h3
  · simp [verifyHashes, computeArtifactHashes, h2]

/-- Directory for the C2 witness: one readable file `dom.html`. -/
def c2Fs : FileSystem := fun n =>
  if n = "dom.html" then .ok [60, 104, 116, 109, 108, 62]
  else .error "ENOENT: no such file or directory"

/-- Manifest for the C2 witness. -/
def c2Manifest : EvidenceManifest :=
  { schemaVersion := "1.0", acquisitionId := "acq-1",
    artifacts :=
      [{ filename := "dom.html", description := "DOM snapshot",
         mimeType := "text/html", sizeBytes := 0, sha256 := "",
         createdAt := "2025-01-01T00:00:00.000Z",
         evidentiaryPurpose := "Captured DOM state." }],
    masterHash :=
      ⟨"SHA256", "", "SHA256 of concatenated artifact hashes"⟩,
    timestampProof := none }

theorem hash_roundTrip_pass_witness :
    (∀ a ∈ c2Manifest.artifacts, ∃ bs, c2Fs a.filename = Except.ok bs) ∧
    (verifyHashes c2Fs (computeArtifactHashes c2Fs c2Manifest)).overallStatus =
      PassFail.pass := by
  have h : ∀ a ∈ c2Manifest.artifacts, ∃ bs, c2Fs a.filename = Except.ok bs := by
    intro a ha
    simp only [c2Manifest, List.mem_singleton] at ha
    subst ha
    exact ⟨[60, 104, 116, 109, 108, 62], rfl⟩
  exact ⟨h, (hash_roundTrip_pass c2Fs c2Manifest h).1⟩

/-- C3: the overall verdict is `pass` iff every per-file verdict is `pass` and
the master-hash verdict is `pass`; overwriting any single artifact's file with
bytes hashing differently from its stored hash makes that file's verdict
`fail` and the overall verdict `fail`; deleting (making unreadable) any
single artifact's file makes its verdict `missing` and the overall verdict
`fail`. -/
theorem verifyHashes_verdicts :
    (∀ (fs : FileSystem) (m : EvidenceManifest),
      ((verifyHashes fs m).overallStatus = PassFail.pass ↔
        ((∀ f ∈ (verifyHashes fs m).files, f.status = FileVerdict.pass) ∧
         (verifyHashes fs m).masterHash.status = PassFail.pass))) ∧
    (∀ (fs : FileSystem) (m : EvidenceManifest) (i : Nat) (bs : List Nat),
      i < m.artifacts.length →
      hashBytesHex bs ≠ (m.artifacts.getD i default).sha256 →
      (((verifyHashes (fsWrite fs (m.artifacts.getD i default).filename bs) m).files.getD
          i default).status = FileVerdict.fail ∧
       (verifyHashes (fsWrite fs (m.artifacts.getD i default).filename bs) m).overallStatus =
         PassFail.fail)) ∧
    (∀ (fs : FileSystem) (m : EvidenceManifest) (i : Nat) (err : String),
      i < m.artifacts.length →
      (((verifyHashes (fsErase fs (m.artifacts.getD i default).filename err) m).files.getD
          i default).status = FileVerdict.missing ∧
       (verifyHashes (fsErase fs (m.artifacts.getD i default).filename err) m).overallStatus =
         PassFail.fail)) := by
  have hoverall : ∀ (fs : FileSystem) (m : EvidenceManifest),
      (verifyArtifactsLoop fs m.artifacts).2.2 = false →
      (verifyHashes fs m).overallStatus = PassFail.fail := by
    intro fs m hA
    simp [verifyHashes, hA]
  refine ⟨?_, ?_, ?_⟩
  · intro fs m
    by_cases hM : hashString (String.join (verifyArtifactsLoop fs m.artifacts).2.1) =
        m.masterHash.value
    · cases hA : (verifyArtifactsLoop fs m.artifacts).2.2 with
      | true =>
        have hfiles := (verifyArtifactsLoop_allPassed_iff fs m.artifacts).mp hA
        constructor
        · intro _
          refine ⟨?_, by simp [verifyHashes, hM]⟩
          intro f hf
          exact hfiles f (by simpa [verifyHashes] using hf)
        · intro _
          simp [verifyHashes, hM, hA]
      | false =>
        have hfiles : ¬ ∀ f ∈ (verifyArtifactsLoop fs m.artifacts).1,
            f.status = FileVerdict.pass := by
          intro hc
          have := (verifyArtifactsLoop_allPassed_iff fs m.artifacts).mpr hc
          simp [hA] at this
        simp [verifyHashes, hM, hA, hfiles]
    · simp [verifyHashes, hM]
  · intro fs m i bs hi hne
    have hfile : ((verifyHashes (fsWrite fs (m.artifacts.getD i default).filename bs)
        m).files.getD i default).status = FileVerdict.fail := by
      have hmap : (verifyHashes (fsWrite fs (m.artifacts.getD i default).filename bs)
          m).files = m.artifacts.map
            (verifyOne (fsWrite fs (m.artifacts.getD i default).filename bs)) := by
        simp [verifyHashes, verifyArtifactsLoop_files]
      rw [hmap, getD_map_of_lt _ _ i hi default default]
      have hfs : (fsWrite fs (m.artifacts.getD i default).filename bs)
          ((m.artifacts.getD i default).filename) = .ok bs := by simp [fsWrite]
      simp only [verifyOne, hfs]
      rw [if_neg hne]
    refine ⟨hfile, ?_⟩
    apply hoverall
    rw [Bool.eq_false_iff]
    intro hA
    have hall := (verifyArtifactsLoop_allPassed_iff _ m.artifacts).mp hA
    have hmem : ((verifyHashes (fsWrite fs (m.artifacts.getD i default).filename bs)
        m).files.getD i default) ∈
        (verifyArtifactsLoop (fsWrite fs (m.artifacts.getD i default).filename bs)
          m.artifacts).1 := by
      have hlen : i < (verifyArtifactsLoop
          (fsWrite fs (m.artifacts.getD i default).filename bs) m.artifacts).1.length := by
        rw [verifyArtifactsLoop_files]
        simpa using hi
      have := getD_mem_of_lt _ i hlen (default : FileVerifyResult)
      simpa [verifyHashes] using this
    have := hall _ hmem
    rw [hfile] at this
    exact FileVerdict.noConfusion this
  · intro fs m i err hi
    have hfile : ((verifyHashes (fsErase fs (m.artifacts.getD i default).filename err)
        m).files.getD i default).status = FileVerdict.missing := by
      have hmap : (verifyHashes (fsErase fs (m.artifacts.getD i default).filename err)
          m).files = m.artifacts.map
            (verifyOne (fsErase fs (m.artifacts.getD i default).filename err)) := by
        simp [verifyHashes, verifyArtifactsLoop_files]
      rw [hmap, getD_map_of_lt _ _ i hi default default]
      have hfs : (fsErase fs (m.artifacts.getD i default).filename err)
          ((m.artifacts.getD i default).filename) = .error err := by simp [fsErase]
      simp only [verifyOne, hfs]
    refine ⟨hfile, ?_⟩
    apply hoverall
    rw [Bool.eq_false_iff]
    intro hA
    have hall := (verifyArtifactsLoop_allPassed_iff _ m.artifacts).mp hA
    have hmem : ((verifyHashes (fsErase fs (m.artifacts.getD i default).filename err)
        m).files.getD i default) ∈
        (verifyArtifactsLoop (fsErase fs (m.artifacts.getD i default).filename err)
          m.artifacts).1 := by
      have hlen : i < (verifyArtifactsLoop
          (fsErase fs (m.artifacts.getD i default).filename err) m.artifacts).1.length := by
        rw [verifyArtifactsLoop_files]
        simpa using hi
      have := getD_mem_of_lt _ i hlen (default : FileVerifyResult)
      simpa [verifyHashes] using this
    have := hall _ hmem
    rw [hfile] at this
    exact FileVerdict.noConfusion this

/-- Directory for the C3 witness: one readable file `a.bin`. -/
def c3Fs : FileSystem := fun n =>
  if n = "a.bin" then .ok [0] else .error "ENOENT: no such file or directory"

/-- Manifest for the C3 witness: `a.bin` with its correct stored hash. -/
def c3Manifest : EvidenceManifest :=
  { schemaVersion := "1.0", acquisitionId := "acq-3",
    artifacts :=
      [{ filename := "a.bin", description := "Raw byte artifact",
         mimeType := "application/octet-stream", sizeBytes := 1,
         sha256 := hashBytesHex [0],
         createdAt := "2025-01-01T00:00:00.000Z",
         evidentiaryPurpose := "Test artifact." }],
    masterHash :=
      ⟨"SHA256", hashString (hashBytesHex [0]),
       "SHA256 of concatenated artifact hashes"⟩,
    timestampProof := none }

theorem verifyHashes_verdicts_witness :
    (0 < c3Manifest.artifacts.length) ∧
    (hashBytesHex [1] ≠ (c3Manifest.artifacts.getD 0 default).sha256) ∧
    ((verifyHashes (fsWrite c3Fs (c3Manifest.artifacts.getD 0 default).filename [1])
        c3Manifest).files.getD 0 default).status = FileVerdict.fail ∧
    (verifyHashes (fsWrite c3Fs (c3Manifest.artifacts.getD 0 default).filename [1])
        c3Manifest).overallStatus = PassFail.fail ∧
    ((verifyHashes (fsErase c3Fs (c3Manifest.artifacts.getD 0 default).filename "ENOENT")
        c3Manifest).files.getD 0 default).status = FileVerdict.missing ∧
    (verifyHashes (fsErase c3Fs (c3Manifest.artifacts.getD 0 default).filename "ENOENT")
        c3Manifest).overallStatus = PassFail.fail := by
  have hi : (0 : Nat) < c3Manifest.artifacts.length := by decide
  have hne : hashBytesHex [1] ≠ (c3Manifest.artifacts.getD 0 default).sha256 := by decide
  obtain ⟨hf, ho⟩ := verifyHashes_verdicts.2.1 c3Fs c3Manifest 0 [1] hi hne
  obtain ⟨hf2, ho2⟩ := verifyHashes_verdicts.2.2 c3Fs c3Manifest 0 "ENOENT" hi
  exact ⟨hi, hne, hf, ho, hf2, ho2⟩

/-! ## Timestamp proof protocol: lemmas and claims -/

/-- A 64-character string of hex digits (the shape of every stamped master
hash). -/
def isHex64 (s : String) : Bool :=
  s.length == 64 && s.data.all (fun c => (hexDigitVal c).isSome)

theorem hexDecodeChars_length_valid :
    ∀ l : List Char, (∀ c ∈ l, (hexDigitVal c).isSome = true) →
      (hexDecodeChars l).length = l.length / 2
  | [] => fun _ => rfl
  | [c] => fun _ => by simp [hexDecodeChars]
  | c1 :: c2 :: rest => fun h => by
      have h1 := h c1 (by simp)
      have h2 := h c2 (by simp)
      obtain ⟨v1, hv1⟩ := Option.isSome_iff_exists.mp h1
      obtain ⟨v2, hv2⟩ := Option.isSome_iff_exists.mp h2
      have ih := hexDecodeChars_length_valid rest (fun c hc => h c (by simp [hc]))
      simp only [hexDecodeChars, hv1, hv2, List.length_cons, ih]
      omega

theorem hexDecode_length_of_hex64 (s : String) (h : isHex64 s = true) :
    (hexDecode s).length = 32 := by
  simp only [isHex64, Bool.and_eq_true, beq_iff_eq, List.all_eq_true] at h
  obtain ⟨hlen, hall⟩ := h
  have : s.data.length = 64 := hlen
  rw [hexDecode, hexDecodeChars_length_valid s.data (fun c hc => hall c hc), this]

theorem submitLoop_none_iff (submit : String → List Nat → Option (List Nat))
    (digest : List Nat) (urls : List String) :
    (submitLoop submit digest urls).1 = none ↔
      ∀ u ∈ urls, submit u digest = none := by
  induction urls with
  | nil => simp [submitLoop]
  | cons u rest ih =>
    cases h : submit u digest with
    | some resp => simp [submitLoop, h]
    | none => simp [submitLoop, h, ih]

theorem submitLoop_first_success (submit : String → List Nat → Option (List Nat))
    (digest : List Nat) (u : String) (resp : List Nat) (post : List String) :
    ∀ pre : List String, (∀ v ∈ pre, submit v digest = none) →
      submit u digest = some resp →
      submitLoop submit digest (pre ++ u :: post) =
        (some (magicBytes ++ [0x08] ++ digest ++ resp), pre ++ [u]) := by
  intro pre
  induction pre with
  | nil =>
    intro _ hu
    simp [submitLoop, hu]
  | cons v rest ih =>
    intro hpre hu
    have hv := hpre v (by simp)
    have := ih (fun w hw => hpre w (by simp [hw])) hu
    simp [submitLoop, hv, this]

/-- C6: when a calendar submission returns HTTP 200, the written proof file is
exactly the 31-byte magic prefix, the algorithm-tag byte `0x08`, the 32 raw
bytes decoded from the stamped master-hash hex string, and that endpoint's
response bytes verbatim; endpoints after the first success are never
contacted; the returned proof has status `pending`. -/
theorem createTimestampProof_success_envelope
    (submit : String → List Nat → Option (List Nat)) (requestedAt : String)
    (m : EvidenceManifest) (pre post : List String) (u : String) (resp : List Nat)
    (hpre : ∀ v ∈ pre, submit v (hexDecode m.masterHash.value) = none)
    (hu : submit u (hexDecode m.masterHash.value) = some resp)
    (hhex : isHex64 m.masterHash.value = true) :
    (createTimestampProof ⟨true, pre ++ u :: post, submit⟩ requestedAt m).written =
      some (magicBytes ++ [0x08] ++ hexDecode m.masterHash.value ++ resp) ∧
    (hexDecode m.masterHash.value).length = 32 ∧
    (createTimestampProof ⟨true, pre ++ u :: post, submit⟩ requestedAt m).attempted =
      pre ++ [u] ∧
    (createTimestampProof ⟨true, pre ++ u :: post, submit⟩ requestedAt m).proof.status =
      TsStatus.pending := by
  have hloop := submitLoop_first_success submit (hexDecode m.masterHash.value)
    u resp post pre hpre hu
  refine ⟨?_, hexDecode_length_of_hex64 _ hhex, ?_, ?_⟩ <;>
    simp [createTimestampProof, hloop]

/-- Manifest used by the timestamp-protocol witnesses: its master hash is a
genuine 64-hex-character digest. -/
def c6Manifest : EvidenceManifest :=
  { schemaVersion := "1.0", acquisitionId := "acq-6", artifacts := [],
    masterHash :=
      ⟨"SHA256", hashString "", "SHA256 of concatenated artifact hashes"⟩,
    timestampProof := none }

/-- Network for the C6 witness: the first calendar fails, the second returns
HTTP 200 with body `[1, 2, 3]`. -/
def c6Submit : String → List Nat → Option (List Nat) := fun u _ =>
  if u = "https://b.pool.opentimestamps.org" then some [1, 2, 3] else none

theorem createTimestampProof_success_envelope_witness :
    (createTimestampProof
        ⟨true, ["https://a.pool.opentimestamps.org"] ++
          "https://b.pool.opentimestamps.org" :: [], c6Submit⟩ "t" c6Manifest).written =
      some (magicBytes ++ [0x08] ++ hexDecode c6Manifest.masterHash.value ++ [1, 2, 3]) ∧
    (hexDecode c6Manifest.masterHash.value).length = 32 ∧
    (createTimestampProof
        ⟨true, ["https://a.pool.opentimestamps.org"] ++
          "https://b.pool.opentimestamps.org" :: [], c6Submit⟩ "t" c6Manifest).attempted =
      ["https://a.pool.opentimestamps.org"] ++ ["https://b.pool.opentimestamps.org"] ∧
    (createTimestampProof
        ⟨true, ["https://a.pool.opentimestamps.org"] ++
          "https://b.pool.opentimestamps.org" :: [], c6Submit⟩ "t" c6Manifest).proof.status =
      TsStatus.pending := by
  exact createTimestampProof_success_envelope c6Submit "t" c6Manifest
    ["https://a.pool.opentimestamps.org"] [] "https://b.pool.opentimestamps.org" [1, 2, 3]
    (by intro v hv; simp only [List.mem_singleton] at hv; subst hv; rfl)
    (by rfl) (by decide)

/-- C7: `createTimestampProof` returns status `error` and writes no proof file
exactly when no calendar submission succeeds; with timestamping disabled it
short-circuits to `error` with an empty calendar list, no endpoint contacted
and the disabled-message; when every endpoint fails it reports the
descriptive all-calendars-failed message. -/
theorem createTimestampProof_error_cases (enabled : Bool) (urls : List String)
    (submit : String → List Nat → Option (List Nat)) (requestedAt : String)
    (m : EvidenceManifest) :
    ((createTimestampProof ⟨enabled, urls, submit⟩ requestedAt m).proof.status =
        TsStatus.error ↔
      (enabled = false ∨ ∀ u ∈ urls, submit u (hexDecode m.masterHash.value) = none)) ∧
    ((createTimestampProof ⟨enabled, urls, submit⟩ requestedAt m).written = none ↔
      (enabled = false ∨ ∀ u ∈ urls, submit u (hexDecode m.masterHash.value) = none)) ∧
    (enabled = false →
      (createTimestampProof ⟨enabled, urls, submit⟩ requestedAt m).proof.calendarUrls = [] ∧
      (createTimestampProof ⟨enabled, urls, submit⟩ requestedAt m).attempted = [] ∧
      (createTimestampProof ⟨enabled, urls, submit⟩ requestedAt m).proof.errorMessage =
        some "OpenTimestamps is disabled in configuration") ∧
    (enabled = true →
      (∀ u ∈ urls, submit u (hexDecode m.masterHash.value) = none) →
      (createTimestampProof ⟨enabled, urls, submit⟩ requestedAt m).proof.errorMessage =
        some "Failed to obtain timestamp from any calendar server") := by
  cases enabled with
  | false => simp [createTimestampProof]
  | true =>
    have hiff := submitLoop_none_iff submit (hexDecode m.masterHash.value) urls
    refine ⟨?_, ?_, by simp, ?_⟩
    · cases h : (submitLoop submit (hexDecode m.masterHash.value) urls).1 with
      | some data =>
        simp only [createTimestampProof, h]
        simp [← hiff, h]
      | none =>
        simp only [createTimestampProof, h]
        simp [← hiff, h]
    · cases h : (submitLoop submit (hexDecode m.masterHash.value) urls).1 with
      | some data =>
        simp only [createTimestampProof, h]
        simp [← hiff, h]
      | none =>
        simp only [createTimestampProof, h]
        simp [← hiff, h]
    · intro _ hall
      have h0 : (submitLoop submit (hexDecode m.masterHash.value) urls).1 = none :=
        hiff.mpr hall
      simp [createTimestampProof, h0]

/-- Network for the C7 witness: every calendar fails. -/
def c7Submit : String → List Nat → Option (List Nat) := fun _ _ => none

theorem createTimestampProof_error_cases_witness :
    ((createTimestampProof ⟨false, ["https://a.pool.opentimestamps.org"], c7Submit⟩
        "t" c6Manifest).proof.calendarUrls = [] ∧
      (createTimestampProof ⟨false, ["https://a.pool.opentimestamps.org"], c7Submit⟩
        "t" c6Manifest).attempted = [] ∧
      (createTimestampProof ⟨false, ["https://a.pool.opentimestamps.org"], c7Submit⟩
        "t" c6Manifest).proof.errorMessage =
          some "OpenTimestamps is disabled in configuration") ∧
    (createTimestampProof ⟨true, ["https://a.pool.opentimestamps.org"], c7Submit⟩
        "t" c6Manifest).proof.errorMessage =
      some "Failed to obtain timestamp from any calendar server" := by
  constructor
  · exact (createTimestampProof_error_cases false ["https://a.pool.opentimestamps.org"]
      c7Submit "t" c6Manifest).2.2.1 rfl
  · exact (createTimestampProof_error_cases true ["https://a.pool.opentimestamps.org"]
      c7Submit "t" c6Manifest).2.2.2 rfl (fun u _ => rfl)

/-- C8: every hash-verification run and every timestamp-verification run
appends exactly one entry to `verification-log.json`; every entry of the
prior log state is preserved unchanged (the log is never truncated), and the
new log is exactly the old log plus one appended entry. -/
theorem verificationLog_append_only (fs : FileSystem) (m : EvidenceManifest)
    (logFile : Option (List VerificationLogEntry)) (verifiedAt acqId : String) :
    ((verifyHashesRun fs m logFile verifiedAt acqId).2.length =
        (logFile.getD []).length + 1 ∧
      (verifyHashesRun fs m logFile verifiedAt acqId).2.take
        (logFile.getD []).length = logFile.getD [] ∧
      ∃ e, (verifyHashesRun fs m logFile verifiedAt acqId).2 =
        logFile.getD [] ++ [e]) ∧
    ((verifyTimestampRun fs m logFile verifiedAt acqId).2.length =
        (logFile.getD []).length + 1 ∧
      (verifyTimestampRun fs m logFile verifiedAt acqId).2.take
        (logFile.getD []).length = logFile.getD [] ∧
      ∃ e, (verifyTimestampRun fs m logFile verifiedAt acqId).2 =
        logFile.getD [] ++ [e]) := by
  refine ⟨⟨?_, ?_, ⟨_, rfl⟩⟩, ⟨?_, ?_, ⟨_, rfl⟩⟩⟩ <;>
    simp [verifyHashesRun, verifyTimestampRun, logVerification, List.take_left]

/-! ## Redirect-following capture engine: lemmas and claims -/

theorem captureGo_requests_eq_chain (env : CaptureEnv) (maxRedirects : Nat) :
    ∀ (fuel : Nat) (url : String),
      (captureGo env maxRedirects fuel url).requests =
        (captureGo env maxRedirects fuel url).chain.length := by
  intro fuel
  induction fuel with
  | zero => intro url; rfl
  | succ fuel ih =>
    intro url
    cases h : env.responder url with
    | error msg => simp [captureGo, h]
    | ok resp =>
      by_cases hr : (isRedirectStatus resp.status &&
          locTruthy (getLocationHeader (normalizeHeaders resp.headers))) = true
      · cases hf : fuel with
        | zero => simp [captureGo, h, hr]
        | succ fuel' =>
          have := ih (env.resolveUrl
            ((getLocationHeader (normalizeHeaders resp.headers)).getD "") url)
          simp [captureGo, h, hr, hf] at this ⊢
          omega
      · simp [captureGo, h, hr]

theorem captureGo_chain_le (env : CaptureEnv) (maxRedirects : Nat) :
    ∀ (fuel : Nat) (url : String),
      (captureGo env maxRedirects fuel url).chain.length ≤ fuel := by
  intro fuel
  induction fuel with
  | zero => intro url; simp [captureGo]
  | succ fuel ih =>
    intro url
    cases h : env.responder url with
    | error msg => simp [captureGo, h]
    | ok resp =>
      by_cases hr : (isRedirectStatus resp.status &&
          locTruthy (getLocationHeader (normalizeHeaders resp.headers))) = true
      · cases hf : fuel with
        | zero => simp [captureGo, h, hr]
        | succ fuel' =>
          have := ih (env.resolveUrl
            ((getLocationHeader (normalizeHeaders resp.headers)).getD "") url)
          simp [captureGo, h, hr, hf] at this ⊢
          omega
      · simp [captureGo, h, hr]

/-- A target that redirects on every request (with a usable `Location`). -/
def alwaysRedirects (env : CaptureEnv) : Prop :=
  ∀ u : String, ∃ resp, env.responder u = Except.ok resp ∧
    isRedirectStatus resp.status = true ∧
    locTruthy (getLocationHeader (normalizeHeaders resp.headers)) = true

theorem captureGo_alwaysRedirects (env : CaptureEnv) (maxRedirects : Nat)
    (h : alwaysRedirects env) :
    ∀ (fuel : Nat) (url : String),
      (captureGo env maxRedirects (fuel + 1) url).chain.length = fuel + 1 ∧
      ("Maximum redirects (" ++ toString maxRedirects ++ ") exceeded") ∈
        (captureGo env maxRedirects (fuel + 1) url).errors := by
  intro fuel
  induction fuel with
  | zero =>
    intro url
    obtain ⟨resp, hresp, hst, hloc⟩ := h url
    simp [captureGo, hresp, hst, hloc]
  | succ fuel ih =>
    intro url
    obtain ⟨resp, hresp, hst, hloc⟩ := h url
    have := ih (env.resolveUrl
      ((getLocationHeader (normalizeHeaders resp.headers)).getD "") url)
    simp [captureGo, hresp, hst, hloc] at this ⊢
    exact this

/-- C9: the capture loop issues at most `maxRedirects + 1` requests (one per
recorded hop) and, being a total function, always terminates; against a
target that keeps redirecting, the chain has exactly `maxRedirects + 1` hops
(≤ `maxRedirects + 2`), the error list contains the
"Maximum redirects (N) exceeded" message, and a best-effort result with the
recorded hops is still returned. -/
theorem httpCapture_redirect_bound (env : CaptureEnv) (maxRedirects : Nat)
    (url : String) :
    (httpCapture env maxRedirects url).requests =
      (httpCapture env maxRedirects url).redirectChain.length ∧
    (httpCapture env maxRedirects url).requests ≤ maxRedirects + 1 ∧
    (httpCapture env maxRedirects url).redirectChain.length ≤ maxRedirects + 2 ∧
    (alwaysRedirects env →
      ("Maximum redirects (" ++ toString maxRedirects ++ ") exceeded") ∈
        (httpCapture env maxRedirects url).errors ∧
      (httpCapture env maxRedirects url).redirectChain.length = maxRedirects + 1) := by
  have h1 := captureGo_requests_eq_chain env maxRedirects (maxRedirects + 1) url
  have h2 := captureGo_chain_le env maxRedirects (maxRedirects + 1) url
  refine ⟨h1, ?_, ?_, ?_⟩
  · simpa [httpCapture, h1] using h2
  · simp only [httpCapture]
    omega
  · intro hred
    obtain ⟨hl, hm⟩ := captureGo_alwaysRedirects env maxRedirects hred maxRedirects url
    exact ⟨hm, hl⟩

/-- Capture environment for the C9 witness: every URL answers `301` with
`Location: /next`. -/
def c9Env : CaptureEnv :=
  { responder := fun _ =>
      Except.ok ⟨301, "Moved Permanently", [("Location", HeaderValue.single "/next")], ""⟩,
    resolveUrl := fun loc _ => loc }

theorem httpCapture_redirect_bound_witness :
    ("Maximum redirects (" ++ toString 2 ++ ") exceeded") ∈
      (httpCapture c9Env 2 "https://example.com/a").errors ∧
    (httpCapture c9Env 2 "https://example.com/a").redirectChain.length = 2 + 1 := by
  have hred : alwaysRedirects c9Env := by
    intro u
    exact ⟨⟨301, "Moved Permanently", [("Location", HeaderValue.single "/next")], ""⟩,
      rfl, by decide, by decide⟩
  exact (httpCapture_redirect_bound c9Env 2 "https://example.com/a").2.2.2 hred

/-! ## The pipeline claim: the timestamp proof covers the pre-append master hash -/

theorem String_join_concat (l : List String) (s : String) :
    String.join (l ++ [s]) = String.join l ++ s := by
  show List.foldl (fun r t => r ++ t) "" (l ++ [s]) = _
  rw [List.foldl_append]
  rfl

theorem hashBytesHex_length (bs : List Nat) : (hashBytesHex bs).length = 64 := by
  show (bytesToHex (sha256Bytes bs)).length = 64
  rw [bytesToHex_length, sha256Bytes_length]

theorem mem_hashLoop_filenames (fs : FileSystem) (l : List EvidenceArtifact)
    (a : EvidenceArtifact) (ha : a ∈ (hashArtifactsLoop fs l).1) :
    ∃ b ∈ l, a.filename = b.filename := by
  have hmem : a.filename ∈ (hashArtifactsLoop fs l).1.map (fun x => x.filename) :=
    List.mem_map_of_mem _ ha
  rw [hashArtifactsLoop_filenames] at hmem
  obtain ⟨b, hb, he⟩ := List.mem_map.mp hmem
  exact ⟨b, hb, he.symm⟩

theorem createTimestampProof_stampedHash (e : OtsEnv) (t : String)
    (m : EvidenceManifest) :
    (createTimestampProof e t m).proof.stampedHash = m.masterHash.value := by
  cases he : e.enabled with
  | false => simp [createTimestampProof, he]
  | true =>
    cases hs : (submitLoop e.submit (hexDecode m.masterHash.value) e.calendarUrls).1 with
    | none => simp [createTimestampProof, he, hs]
    | some data => simp [createTimestampProof, he, hs]

theorem computeArtifactHashes_timestampProof (fs : FileSystem) (m : EvidenceManifest) :
    (computeArtifactHashes fs m).timestampProof = m.timestampProof := rfl

/-- A re-hashing pass over already-hashed artifacts plus one appended artifact
whose file is readable: the hash list is the first pass's list plus the new
file's hash, provided the directory still agrees on the original files. -/
theorem appendPass_hashList (fs fs' : FileSystem) (arts : List EvidenceArtifact)
    (extra : EvidenceArtifact) (extraBytes : List Nat)
    (hagree : ∀ a ∈ arts, fs' a.filename = fs a.filename)
    (hextra : fs' extra.filename = .ok extraBytes) :
    (hashArtifactsLoop fs' ((hashArtifactsLoop fs arts).1 ++ [extra])).2 =
      (hashArtifactsLoop fs arts).2 ++ [hashBytesHex extraBytes] := by
  have hagree' : ∀ a ∈ (hashArtifactsLoop fs arts).1, fs' a.filename = fs a.filename := by
    intro a ha
    obtain ⟨b, hb, he⟩ := mem_hashLoop_filenames fs arts a ha
    rw [he]
    exact hagree b hb
  rw [hashArtifactsLoop_append]
  rw [hashArtifactsLoop_congr fs' fs _ hagree', hashArtifactsLoop_idem]
  simp [hashArtifactsLoop, hextra]

/-- C5: in the persisted manifest, `timestampProof.stampedHash` equals the
master hash of the first hashing pass, taken before `logs.json` (and
`summary.pdf`) are appended; the final `masterHash.value` is the hash of the
strictly extended input, so whenever that extension changes the digest the
final master hash differs from the stamped hash — the proof covers only the
pre-append master hash. -/
theorem timestampProof_covers_preAppend_masterHash (env : PipelineEnv)
    (m0 : EvidenceManifest)
    (hlogs : ∀ a ∈ m0.artifacts, a.filename ≠ "logs.json")
    (hpdf : ∀ a ∈ m0.artifacts, a.filename ≠ "summary.pdf")
    (hots : ∀ a ∈ m0.artifacts, a.filename ≠ "manifest.json.ots") :
    ∃ p, (capturePipeline env m0).timestampProof = some p ∧
      p.stampedHash = (computeArtifactHashes env.fs m0).masterHash.value ∧
      p.stampedHash = hashString (masterInput env.fs m0) ∧
      (capturePipeline env m0).masterHash.value =
        hashString (masterInput env.fs m0 ++ pipelineSuffix env) ∧
      pipelineSuffix env ≠ "" ∧
      (hashString (masterInput env.fs m0 ++ pipelineSuffix env) ≠
          hashString (masterInput env.fs m0) →
        (capturePipeline env m0).masterHash.value ≠ p.stampedHash) := by
  have hfs1_logs : pipelineFs1 env (computeArtifactHashes env.fs m0) "logs.json" =
      .ok env.logsBytes := by
    cases hw : (createTimestampProof env.ots env.requestedAt
        (computeArtifactHashes env.fs m0)).written <;>
      simp [pipelineFs1, fsWrite, hw]
  have hfs1_agree : ∀ a ∈ m0.artifacts,
      pipelineFs1 env (computeArtifactHashes env.fs m0) a.filename =
        env.fs a.filename := by
    intro a ha
    cases hw : (createTimestampProof env.ots env.requestedAt
        (computeArtifactHashes env.fs m0)).written <;>
      simp [pipelineFs1, fsWrite, hw, hlogs a ha, hots a ha]
  -- hash list of the second pass
  have hpass2 : (hashArtifactsLoop (pipelineFs1 env (computeArtifactHashes env.fs m0))
      ((hashArtifactsLoop env.fs m0.artifacts).1 ++ [logsArtifact env.logsCreatedAt])).2 =
      (hashArtifactsLoop env.fs m0.artifacts).2 ++ [hashBytesHex env.logsBytes] :=
    appendPass_hashList env.fs _ m0.artifacts _ env.logsBytes hfs1_agree hfs1_logs
  have hsuffix : pipelineSuffix env ≠ "" := by
    intro hempty
    have := congrArg String.length hempty
    rw [pipelineSuffix] at this
    rw [String.length_append, hashBytesHex_length] at this
    simp [String.length_empty] at this
  have hts : (capturePipeline env m0).timestampProof =
      some (createTimestampProof env.ots env.requestedAt
        (computeArtifactHashes env.fs m0)).proof := by
    cases hgen : env.generatePdf <;>
      simp [capturePipeline, hgen, computeArtifactHashes_timestampProof]
  have hstamp1 : (createTimestampProof env.ots env.requestedAt
      (computeArtifactHashes env.fs m0)).proof.stampedHash =
      (computeArtifactHashes env.fs m0).masterHash.value :=
    createTimestampProof_stampedHash _ _ _
  have hstamp2 : (createTimestampProof env.ots env.requestedAt
      (computeArtifactHashes env.fs m0)).proof.stampedHash =
      hashString (masterInput env.fs m0) := hstamp1
  have hmasterv : (capturePipeline env m0).masterHash.value =
      hashString (masterInput env.fs m0 ++ pipelineSuffix env) := by
    cases hgen : env.generatePdf with
    | false =>
      simp only [capturePipeline, hgen, Bool.false_eq_true, if_false]
      show hashString (String.join (hashArtifactsLoop
        (pipelineFs1 env (computeArtifactHashes env.fs m0))
        ((hashArtifactsLoop env.fs m0.artifacts).1 ++
          [logsArtifact env.logsCreatedAt])).2) = _
      rw [hpass2, String_join_concat]
      simp [pipelineSuffix, hgen, masterInput, String.append_empty]
    | true =>
      simp only [capturePipeline, hgen, if_true]
      -- third pass over the second pass's artifacts plus summary.pdf
      have hfs2_pdf : fsWrite (pipelineFs1 env (computeArtifactHashes env.fs m0))
          "summary.pdf" env.pdfBytes "summary.pdf" = .ok env.pdfBytes := by
        simp [fsWrite]
      have hfs2_agree : ∀ a ∈ (hashArtifactsLoop env.fs m0.artifacts).1 ++
          [logsArtifact env.logsCreatedAt],
          fsWrite (pipelineFs1 env (computeArtifactHashes env.fs m0))
            "summary.pdf" env.pdfBytes a.filename =
          pipelineFs1 env (computeArtifactHashes env.fs m0) a.filename := by
        intro a ha
        rcases List.mem_append.mp ha with ha | ha
        · obtain ⟨b, hb, he⟩ := mem_hashLoop_filenames env.fs m0.artifacts a ha
          rw [he]
          simp [fsWrite, hpdf b hb]
        · simp only [List.mem_singleton] at ha
          subst ha
          simp [fsWrite, logsArtifact]
      have hpass3 := appendPass_hashList
        (pipelineFs1 env (computeArtifactHashes env.fs m0))
        (fsWrite (pipelineFs1 env (computeArtifactHashes env.fs m0))
          "summary.pdf" env.pdfBytes)
        ((hashArtifactsLoop env.fs m0.artifacts).1 ++ [logsArtifact env.logsCreatedAt])
        (pdfArtifact env.pdfCreatedAt) env.pdfBytes
        (by
          intro a ha
          exact hfs2_agree a (by
            have := hashArtifactsLoop_filenames env.fs m0.artifacts
            exact ha))
        (by simpa [pdfArtifact] using hfs2_pdf)
      show hashString (String.join (hashArtifactsLoop _
        ((hashArtifactsLoop (pipelineFs1 env (computeArtifactHashes env.fs m0))
          ((hashArtifactsLoop env.fs m0.artifacts).1 ++
            [logsArtifact env.logsCreatedAt])).1 ++
          [pdfArtifact env.pdfCreatedAt])).2) = _
      rw [hpass3, hpass2, String_join_concat, String_join_concat]
      simp [pipelineSuffix, hgen, masterInput, String.append_assoc]
  refine ⟨(createTimestampProof env.ots env.requestedAt
    (computeArtifactHashes env.fs m0)).proof, hts, hstamp1, hstamp2, hmasterv,
    hsuffix, ?_⟩
  intro hne
  rw [hmasterv, hstamp2]
  exact hne

/-- Pipeline environment for the C5 witness: empty acquisition, timestamping
disabled, no PDF. -/
def c5Env : PipelineEnv :=
  { fs := fun _ => .error "ENOENT: no such file or directory",
    ots := ⟨false, [], fun _ _ => none⟩,
    requestedAt := "2025-01-01T00:00:00.000Z",
    logsBytes := [], logsCreatedAt := "2025-01-01T00:00:01.000Z",
    pdfBytes := [], pdfCreatedAt := "2025-01-01T00:00:02.000Z",
    generatePdf := false }

/-- Manifest for the C5 witness. -/
def c5M0 : EvidenceManifest :=
  { schemaVersion := "1.0", acquisitionId := "acq-5", artifacts := [],
    masterHash := ⟨"SHA256", "", "SHA256 of concatenated artifact hashes"⟩,
    timestampProof := none }

set_option maxRecDepth 100000 in
theorem timestampProof_covers_preAppend_masterHash_witness :
    ∃ p, (capturePipeline c5Env c5M0).timestampProof = some p ∧
      (capturePipeline c5Env c5M0).masterHash.value ≠ p.stampedHash := by
  have hne : hashString (masterInput c5Env.fs c5M0 ++ pipelineSuffix c5Env) ≠
      hashString (masterInput c5Env.fs c5M0) := by decide
  obtain ⟨p, hts, _, _, _, _, himp⟩ :=
    timestampProof_covers_preAppend_masterHash c5Env c5M0
      (by intro a ha; simp [c5M0] at ha)
      (by intro a ha; simp [c5M0] at ha)
      (by intro a ha; simp [c5M0] at ha)
  exact ⟨p, hts, himp hne⟩

end EvidenTrace
